import Mathlib

/-!
Shallow embedding of the sports-predictor core pipeline
(feature extraction, heuristic and trained probability models,
Kelly stake sizing, bet settlement, and the backtest replay),
with theorems checking the specified properties against the code.

JavaScript numbers are modelled as rationals (ℚ); the trained model's
logistic squashing uses `Real.exp`, so that part is modelled over ℝ.
SQL `NULL`-able columns are modelled as `Option` values, and the JS
truthiness / `||` idioms are modelled explicitly.
-/

namespace SportsPredictor

/-- JS `x || d` on numbers: `0` (and null/undefined) is falsy. -/
def jsOr (x d : ℚ) : ℚ := if x = 0 then d else x

/-- JS truthiness of a nullable number: null/undefined and 0 are falsy. -/
def jsTruthy (x : Option ℚ) : Bool :=
  match x with
  | none => false
  | some v => v != 0

/-- JS `a > b` where either side may be null (null coerces to 0). -/
def jsGt (a b : Option ℚ) : Bool := a.getD 0 > b.getD 0

/-- JS `a < b` with null coercion. -/
def jsLt (a b : Option ℚ) : Bool := a.getD 0 < b.getD 0

/-- A row of the `historical_games` / `games` tables. -/
structure Game where
  id : String
  sport : String
  home_team : String
  away_team : String
  start_time : ℚ            -- epoch milliseconds
  home_score : Option ℚ
  away_score : Option ℚ
  home_odds : Option ℚ := none
  away_odds : Option ℚ := none
  status : String := "completed"
  deriving DecidableEq

/-- `ORDER BY start_time DESC` (stable sort, most recent first). -/
def sortByStartDesc (l : List Game) : List Game :=
  l.mergeSort (fun a b => b.start_time ≤ a.start_time)

/-- The feature vector produced by the feature engine. -/
structure Features where
  homeWinPct : ℚ
  awayWinPct : ℚ
  homeAvgScore : ℚ
  awayAvgScore : ℚ
  homeAvgConceded : ℚ
  awayAvgConceded : ℚ
  homeWinPctHome : ℚ
  awayWinPctAway : ℚ
  homeRecentWinPct : ℚ
  awayRecentWinPct : ℚ
  h2hHomeWins : ℚ
  h2hAwayWins : ℚ
  h2hTotal : ℚ
  homeRestDays : ℚ
  awayRestDays : ℚ
  homeRestAdvantage : ℚ
  homeStreak : ℚ
  awayStreak : ℚ
  sport : String
  valid : Bool

/-- `sport.includes('nba')` (substring containment). -/
def sportIncludesNba (sport : String) : Bool :=
  (sport.splitOn "nba").length > 1

/-- SQL comparison `a > b`: any NULL operand makes the predicate false. -/
def sqlGt (a b : Option ℚ) : Bool :=
  match a, b with
  | some x, some y => x > y
  | _, _ => false

/-- SQL comparison `a < b`: any NULL operand makes the predicate false. -/
def sqlLt (a b : Option ℚ) : Bool :=
  match a, b with
  | some x, some y => x < y
  | _, _ => false

/-! ## FeatureEngine (featureEngine.js, "Enhanced Feature Engine v2")

The database is modelled as the list of rows of `historical_games`.
The 5-minute memo cache is behaviourally invisible here because
extraction is a pure function of the table and the team names.  The
`catch` branches of the source are modelled by the `dbError` flag of
`extractFeatures`: any thrown data-access error returns the defaults. -/

structure TeamStats where
  games : ℕ := 0
  wins : ℕ := 0
  winPct : ℚ
  avgScore : ℚ
  avgConceded : ℚ
  homeWinPct : ℚ
  awayWinPct : ℚ

/-- `getDefaultTeamStats(sport)`. -/
def getDefaultTeamStats (sport : String) : TeamStats :=
  { games := 0, wins := 0, winPct := 1/2
    avgScore := if sportIncludesNba sport then 110 else 3/2
    avgConceded := if sportIncludesNba sport then 108 else 13/10
    homeWinPct := 1/2, awayWinPct := 1/2 }

/-- `getTeamStats(teamName, sport, db)`: aggregate SQL counts over the
whole `historical_games` table (note: no cutoff on `start_time`). -/
def getTeamStats (hist : List Game) (teamName sport : String) : TeamStats :=
  let homeGames := (hist.filter (fun g =>
    g.home_team = teamName ∧ g.sport = sport ∧ g.home_score.isSome)).length
  let homeWins := (hist.filter (fun g =>
    g.home_team = teamName ∧ g.sport = sport ∧ sqlGt g.home_score g.away_score)).length
  let awayGames := (hist.filter (fun g =>
    g.away_team = teamName ∧ g.sport = sport ∧ g.home_score.isSome)).length
  let awayWins := (hist.filter (fun g =>
    g.away_team = teamName ∧ g.sport = sport ∧ sqlGt g.away_score g.home_score)).length
  let totalGames := homeGames + awayGames
  let totalWins := homeWins + awayWins
  let homeWinPct : ℚ := if homeGames > 0 then (homeWins : ℚ) / homeGames else 1/2
  let awayWinPct : ℚ := if awayGames > 0 then (awayWins : ℚ) / awayGames else 1/2
  if totalGames = 0 then getDefaultTeamStats sport
  else
    { games := totalGames, wins := totalWins
      winPct := (totalWins : ℚ) / totalGames
      avgScore := if sportIncludesNba sport then 110 else 3/2
      avgConceded := if sportIncludesNba sport then 108 else 13/10
      homeWinPct := homeWinPct, awayWinPct := awayWinPct }

structure RecentForm where
  winPct : ℚ
  streak : ℤ
  games : List Game := []

/-- Window consulted by `getRecentForm`: the `gamesCount` most recently
completed games of the team in the sport, most recent first — over the
whole table, with no as-of cutoff. -/
def recentWindow (hist : List Game) (teamName sport : String) (gamesCount : ℕ) :
    List Game :=
  (sortByStartDesc (hist.filter (fun g =>
    (g.home_team = teamName ∨ g.away_team = teamName) ∧ g.sport = sport ∧
      g.home_score.isSome))).take gamesCount

/-- Did `teamName` win this game (JS comparison, null coerces to 0)? -/
def teamWon (teamName : String) (g : Game) : Bool :=
  (g.home_team = teamName && jsGt g.home_score g.away_score) ||
  (g.away_team = teamName && jsGt g.away_score g.home_score)

/-- One step of the win/streak scan in `getRecentForm`; the accumulator is
(wins so far, streak, current streak type: `none` initially). -/
def formStep (teamName : String) (acc : ℕ × ℤ × Option Bool) (g : Game) :
    ℕ × ℤ × Option Bool :=
  let (wins, streak, ty) := acc
  if teamWon teamName g then
    if ty = some true then (wins + 1, streak + 1, some true)
    else (wins + 1, 1, some true)
  else
    if ty = some false then (wins, streak - 1, some false)
    else (wins, -1, some false)

/-- `getRecentForm(teamName, sport, gamesCount, db)`. -/
def getRecentForm (hist : List Game) (teamName sport : String) (gamesCount : ℕ) :
    RecentForm :=
  let recent := recentWindow hist teamName sport gamesCount
  if recent.isEmpty then { winPct := 1/2, streak := 0, games := [] }
  else
    let (wins, streak, _) := recent.foldl (formStep teamName) (0, 0, none)
    { winPct := (wins : ℚ) / recent.length, streak := streak, games := recent }

structure H2H where
  homeWins : ℕ
  awayWins : ℕ
  total : ℕ

/-- `getHeadToHead(team1, team2, sport, db)`.  The SQL `CASE` for
`team2_wins` repeats `away_team = team1 AND away_score > home_score`
(a slip in the source, kept verbatim here). -/
def getHeadToHead (hist : List Game) (team1 team2 sport : String) : H2H :=
  let meetings := hist.filter (fun g =>
    ((g.home_team = team1 ∧ g.away_team = team2) ∨
     (g.home_team = team2 ∧ g.away_team = team1)) ∧
    g.sport = sport ∧ g.home_score.isSome)
  let team1Wins := (meetings.filter (fun g =>
    (g.home_team = team1 ∧ sqlGt g.home_score g.away_score) ∨
    (g.away_team = team1 ∧ sqlGt g.away_score g.home_score))).length
  let team2Wins := (meetings.filter (fun g =>
    (g.home_team = team1 ∧ sqlLt g.home_score g.away_score) ∨
    (g.away_team = team1 ∧ sqlGt g.away_score g.home_score))).length
  { homeWins := team1Wins, awayWins := team2Wins, total := meetings.length }

/-- `getDaysSinceLastGame(teamName, sport, db)`; `now` is `Date.now()`. -/
def getDaysSinceLastGame (hist : List Game) (teamName sport : String) (now : ℚ) : ℚ :=
  let last := (sortByStartDesc (hist.filter (fun g =>
    (g.home_team = teamName ∨ g.away_team = teamName) ∧ g.sport = sport ∧
      g.home_score.isSome))).head?
  match last with
  | none => 2
  | some g => max 0 ((now - g.start_time) / 86400000)

/-- `getDefaultFeatures(game, sport)`: the error-path feature vector. -/
def getDefaultFeatures (sport : String) : Features :=
  { homeWinPct := 1/2, awayWinPct := 1/2
    homeAvgScore := if sportIncludesNba sport then 110 else 3/2
    awayAvgScore := if sportIncludesNba sport then 108 else 13/10
    homeAvgConceded := if sportIncludesNba sport then 108 else 13/10
    awayAvgConceded := if sportIncludesNba sport then 110 else 3/2
    homeWinPctHome := 1/2, awayWinPctAway := 1/2
    homeRecentWinPct := 1/2, awayRecentWinPct := 1/2
    h2hHomeWins := 0, h2hAwayWins := 0, h2hTotal := 1
    homeRestDays := 2, awayRestDays := 2, homeRestAdvantage := 0
    homeStreak := 0, awayStreak := 0
    sport := sport, valid := false }

/-- `_extractFeaturesUnsafe(game, sport)`: the non-throwing path. -/
def extractFeaturesUnsafe (hist : List Game) (game : Game) (sport : String)
    (now : ℚ) : Features :=
  let homeStats := getTeamStats hist game.home_team sport
  let awayStats := getTeamStats hist game.away_team sport
  let homeForm := getRecentForm hist game.home_team sport 10
  let awayForm := getRecentForm hist game.away_team sport 10
  let h2h := getHeadToHead hist game.home_team game.away_team sport
  let homeRest := getDaysSinceLastGame hist game.home_team sport now
  let awayRest := getDaysSinceLastGame hist game.away_team sport now
  { homeWinPct := homeStats.winPct, awayWinPct := awayStats.winPct
    homeAvgScore := homeStats.avgScore, awayAvgScore := awayStats.avgScore
    homeAvgConceded := homeStats.avgConceded, awayAvgConceded := awayStats.avgConceded
    homeWinPctHome := homeStats.homeWinPct, awayWinPctAway := awayStats.awayWinPct
    homeRecentWinPct := homeForm.winPct, awayRecentWinPct := awayForm.winPct
    h2hHomeWins := h2h.homeWins, h2hAwayWins := h2h.awayWins
    h2hTotal := h2h.total
    homeRestDays := homeRest, awayRestDays := awayRest
    homeRestAdvantage := min (homeRest - awayRest) 2 / 4
    homeStreak := homeForm.streak, awayStreak := awayForm.streak
    sport := sport, valid := true }

/-- `extractFeatures(game, sport)`: any data-access error (`dbError`)
degrades to `getDefaultFeatures`; otherwise the unsafe path runs. -/
def extractFeatures (dbError : Bool) (hist : List Game) (game : Game)
    (sport : String) (now : ℚ) : Features :=
  if dbError then getDefaultFeatures sport
  else extractFeaturesUnsafe hist game sport now

/-! ## PredictionModel (predictionModel.js, heuristic strategy)

`weights?.homeAdvantage || 0.03` reads the (optional) trained home
advantage; it is `none` for an untrained model, and a stored `0` is
falsy, so the constant 0.03 applies then too. -/

/-- `calculateHomeWinProbability(features)`. -/
def calculateHomeWinProbability (weightsHomeAdvantage : Option ℚ)
    (f : Features) : ℚ :=
  let probability : ℚ := 1/2
  let probability := probability +
    (match weightsHomeAdvantage with
     | some w => jsOr w (3/100)
     | none => 3/100)
  let probability := probability + (f.homeRecentWinPct - f.awayRecentWinPct) * (15/100)
  let probability := probability + (f.homeWinPct - f.awayWinPct) * (10/100)
  let probability := probability + (f.homeWinPctHome - f.awayWinPctAway) * (10/100)
  let probability := probability +
    (f.h2hHomeWins - f.h2hAwayWins) / max f.h2hTotal 1 * (5/100)
  let probability := probability + f.homeRestAdvantage * (3/100)
  let probability := probability + min f.homeStreak 3 * (1/100)
  let probability := probability + max f.awayStreak (-3) * (-1/100)
  max (1/4) (min (17/20) probability)

/-- Best-odds pair (both `getBestOdds` variants return this shape). -/
structure Odds where
  home : ℚ
  away : ℚ

/-- The heuristic `predict(game, sport)` result (numeric semantics; the
source additionally formats the numbers with `toFixed(3)` for display). -/
structure Prediction where
  homeWinProb : ℚ
  awayWinProb : ℚ
  predictedWinner : String
  confidence : ℚ
  expectedValue : ℚ

/-- `calculateExpectedValue(homeProb, awayProb, odds)`. -/
def calculateExpectedValue (homeProb awayProb : ℚ) (odds : Odds) : ℚ :=
  let homeEV := homeProb * odds.home - (1 - homeProb) * 1
  let awayEV := awayProb * odds.away - (1 - awayProb) * 1
  max homeEV awayEV

/-- `PredictionModel.predict(game, sport)`: features come from the
feature engine; `bestOdds` stands for `getBestOdds(game)`. -/
def predict (weightsHomeAdvantage : Option ℚ) (dbError : Bool)
    (hist : List Game) (game : Game) (sport : String) (now : ℚ)
    (bestOdds : Odds) : Prediction :=
  let features := extractFeatures dbError hist game sport now
  let homeWinProb := calculateHomeWinProbability weightsHomeAdvantage features
  let awayWinProb := 1 - homeWinProb
  let predictedWinner :=
    if homeWinProb > awayWinProb then game.home_team else game.away_team
  let confidence := if homeWinProb > awayWinProb then homeWinProb else awayWinProb
  { homeWinProb := homeWinProb, awayWinProb := awayWinProb
    predictedWinner := predictedWinner, confidence := confidence
    expectedValue := calculateExpectedValue homeWinProb awayWinProb bestOdds }

/-! ## BettingService (bettingService.js) -/

/-- The service configuration (constructor defaults). -/
structure BettingConfig where
  minConfidence : ℚ := 55/100
  minExpectedValue : ℚ := 2/100
  maxStakePct : ℚ := 5/100
  kellyFraction : ℚ := 25/100

def defaultConfig : BettingConfig := {}

/-- `calculateKellyStake(probability, odds, bankroll)`. -/
def calculateKellyStake (cfg : BettingConfig) (probability odds bankroll : ℚ) : ℚ :=
  let b := odds - 1
  let p := probability
  let q := 1 - p
  if b ≤ 0 then 0
  else
    let kelly := (b * p - q) / b
    let fractionalKelly := kelly * cfg.kellyFraction
    let maxStake := bankroll * cfg.maxStakePct
    let stake := bankroll * max 0 fractionalKelly
    min stake maxStake

/-- Bankroll plus cumulative counters (`this.state`). -/
structure BetState where
  bankroll : ℚ
  totalBets : ℕ := 0
  wins : ℕ := 0
  losses : ℕ := 0
  pushes : ℕ := 0
  totalStaked : ℚ := 0
  totalProfit : ℚ := 0

/-- A `paper_bets` row (fields used by settlement). -/
structure PaperBet where
  game_id : String
  stake : ℚ
  odds : ℚ
  selection : String
  result : String := "pending"
  profit : ℚ := 0

/-- The state mutation of `placeBets` when one bet is accepted
(lines inserting the pending row and updating bankroll/counters). -/
def placeBet (bets : List PaperBet) (st : BetState)
    (game_id : String) (stake odds : ℚ) (selection : String) :
    List PaperBet × BetState :=
  (bets ++ [{ game_id := game_id, stake := stake, odds := odds,
              selection := selection, result := "pending", profit := 0 }],
   { st with bankroll := st.bankroll - stake
             totalBets := st.totalBets + 1
             totalStaked := st.totalStaked + stake })

/-- `games` table lookup by id (the settlement JOIN). -/
def findGame (games : List Game) (id : String) : Option Game :=
  games.find? (fun g => g.id = id)

/-- Does the settlement query select this bet?  It requires
`pb.result = 'pending'` and a joined game with `status = 'completed'`. -/
def shouldSettle (games : List Game) (b : PaperBet) : Bool :=
  b.result = "pending" &&
    match findGame games b.game_id with
    | some g => g.status = "completed"
    | none => false

/-- The outcome classification of `settleBets`: the winning team's name,
or `"push"` on equal scores (JS comparisons, null coerces to 0). -/
def settleResult (g : Game) : String :=
  if jsGt g.home_score g.away_score then g.home_team
  else if jsGt g.away_score g.home_score then g.away_team
  else "push"

/-- The profit computed by `settleBets` for one bet: 0 on a push, stake
times net odds on a win, minus the stake on a loss. -/
def settleProfit (g : Game) (b : PaperBet) : ℚ :=
  if settleResult g = "push" then 0
  else if settleResult g = b.selection then b.stake * (b.odds - 1)
  else -b.stake

/-- The counter update of `settleBets` for one bet. -/
def settleCounters (g : Game) (b : PaperBet) (st : BetState) : BetState :=
  if settleResult g = "push" then { st with pushes := st.pushes + 1 }
  else if settleResult g = b.selection then { st with wins := st.wins + 1 }
  else { st with losses := st.losses + 1 }

/-- The per-bet body of `settleBets`: classify the outcome, compute the
profit, update the row, the bankroll (`stake + profit` returned) and the
running counters. -/
def settleOne (g : Game) (b : PaperBet) (st : BetState) : PaperBet × BetState :=
  ({ b with result := settleResult g, profit := settleProfit g b },
   { settleCounters g b st with
       bankroll := (settleCounters g b st).bankroll + b.stake + settleProfit g b
       totalProfit := (settleCounters g b st).totalProfit + settleProfit g b })

/-- `settleBets()`: one pass over the bets table, settling every pending
bet whose joined game is completed and leaving all other rows unchanged
(the `WHERE pb.result = 'pending' AND g.status = 'completed'` filter). -/
def settleBets (games : List Game) : List PaperBet → BetState →
    List PaperBet × BetState
  | [], st => ([], st)
  | b :: rest, st =>
    if shouldSettle games b then
      match findGame games b.game_id with
      | some g =>
        let p := settleOne g b st
        let q := settleBets games rest p.2
        (p.1 :: q.1, q.2)
      | none =>
        let q := settleBets games rest st
        (b :: q.1, q.2)
    else
      let q := settleBets games rest st
      (b :: q.1, q.2)

/-- A fresh ledger state with a given initial bankroll and zeroed
counters (the constructor's `this.state` with a chosen bankroll). -/
def initState (init : ℚ) : BetState :=
  { bankroll := init, totalBets := 0, wins := 0, losses := 0, pushes := 0
    totalStaked := 0, totalProfit := 0 }

/-- The ledger's two mutating operations: a bet placement (the accepted
branch of `placeBets`) and a settlement pass (`settleBets`). -/
inductive LedgerOp where
  | place (game_id : String) (stake odds : ℚ) (selection : String)
  | settle (games : List Game)

/-- Execute one ledger operation on the wagers table and state. -/
def execOp (s : List PaperBet × BetState) (op : LedgerOp) :
    List PaperBet × BetState :=
  match op with
  | .place gid stake odds sel => placeBet s.1 s.2 gid stake odds sel
  | .settle games => settleBets games s.1 s.2

/-- The total stake of outstanding pending wagers. -/
def pendingStakes (bets : List PaperBet) : ℚ :=
  ((bets.filter (fun b => b.result = "pending")).map (·.stake)).sum

/-- Settlement operations must not involve a team literally named
`"pending"` (the sentinel of the `result` column). -/
def opOk : LedgerOp → Prop
  | .place _ _ _ _ => True
  | .settle games =>
      ∀ g ∈ games, g.home_team ≠ "pending" ∧ g.away_team ≠ "pending"

/-! ## BacktestService (backtestService.js)

`runBacktest` selects completed historical games of the sport
(`ORDER BY start_time DESC LIMIT sampleSize`), fails below 50 games,
and otherwise replays the prediction/staking/settlement loop over the
selected list in that (descending) order against a local bankroll.
`modelWeights` is the shared prediction model's optional trained home
advantage; `now` is `Date.now()` as seen by the feature engine. -/

structure BacktestOptions where
  minConfidence : ℚ := 55/100
  minExpectedValue : ℚ := 2/100
  kellyFraction : ℚ := 25/100
  startDate : Option ℚ := none
  endDate : Option ℚ := none
  sampleSize : ℕ := 500

/-- The games selected by the backtest query. -/
def backtestGames (hist : List Game) (sportKey : String)
    (opts : BacktestOptions) : List Game :=
  (sortByStartDesc (hist.filter (fun g =>
    decide (g.sport = sportKey) && g.home_score.isSome &&
    opts.startDate.all (fun d => decide (d ≤ g.start_time)) &&
    opts.endDate.all (fun d => decide (g.start_time ≤ d))))).take
    opts.sampleSize

/-- `estimateOdds(homeProb, awayProb, actualHomeOdds, actualAwayOdds)`. -/
def estimateOdds (homeProb awayProb : ℚ) (actualHomeOdds actualAwayOdds : Option ℚ) :
    Odds :=
  if jsTruthy actualHomeOdds && jsTruthy actualAwayOdds then
    { home := actualHomeOdds.getD 0, away := actualAwayOdds.getD 0 }
  else
    let fairHome := 1 / homeProb
    let fairAway := 1 / awayProb
    { home := fairHome * (95/100), away := fairAway * (95/100) }

/-- `calculateEV(homeProb, awayProb, odds)`. -/
def calculateEV (homeProb awayProb : ℚ) (odds : Odds) : ℚ :=
  let homeEV := homeProb * odds.home - (1 - homeProb)
  let awayEV := awayProb * odds.away - (1 - awayProb)
  max homeEV awayEV

/-- One entry of the backtest's `bets` array. -/
structure SimBet where
  game : String
  prediction : String
  result : String
  confidence : ℚ
  odds : ℚ
  stake : ℚ
  profit : ℚ
  bankroll : ℚ

structure ConfBucket where
  bets : ℕ := 0
  wins : ℕ := 0
  profit : ℚ := 0

/-- Update of `byConfidence[confBand]` (object keyed by the band). -/
def bumpConfidence (m : List (ℚ × ConfBucket)) (band : ℚ) (won : Bool)
    (profit : ℚ) : List (ℚ × ConfBucket) :=
  match m with
  | [] => [(band, { bets := 1, wins := if won then 1 else 0, profit := profit })]
  | (k, v) :: rest =>
    if k = band then
      (k, { bets := v.bets + 1, wins := v.wins + (if won then 1 else 0),
            profit := v.profit + profit }) :: rest
    else (k, v) :: bumpConfidence rest band won profit

/-- The running state of the simulation loop. -/
structure BacktestState where
  totalBets : ℕ := 0
  wins : ℕ := 0
  losses : ℕ := 0
  pushes : ℕ := 0
  totalStaked : ℚ := 0
  totalProfit : ℚ := 0
  avgOdds : ℚ := 19/10
  byConfidence : List (ℚ × ConfBucket) := []
  bankroll : ℚ := 1000
  bets : List SimBet := []

/-- The backtest's outcome for one historical game: the winner's name or
`"push"` (JS comparisons, null coerces to 0). -/
def backtestResult (game : Game) : String :=
  if jsGt game.home_score game.away_score then game.home_team
  else if jsGt game.away_score game.home_score then game.away_team
  else "push"

/-- The simulated profit of one backtest bet. -/
def backtestProfit (stake selectionOdds : ℚ) (result selection : String) : ℚ :=
  if result = "push" then 0
  else if result = selection then stake * (selectionOdds - 1)
  else -stake

/-- The win/loss/push counter update of one backtest bet. -/
def backtestCounters (st : BacktestState) (result selection : String) :
    BacktestState :=
  if result = "push" then { st with pushes := st.pushes + 1 }
  else if result = selection then { st with wins := st.wins + 1 }
  else { st with losses := st.losses + 1 }

/-- The record appended to the backtest's `bets` array for one bet. -/
def backtestMkBet (opts : BacktestOptions) (st : BacktestState) (game : Game)
    (predictedWinner : String) (confidence : ℚ) (odds : Odds) : SimBet :=
  let stake := st.bankroll * (2/100) * opts.kellyFraction
  let selectionOdds :=
    if predictedWinner = game.home_team then odds.home else odds.away
  let result := backtestResult game
  let profit := backtestProfit stake selectionOdds result predictedWinner
  { game := game.home_team ++ " vs " ++ game.away_team
    prediction := predictedWinner, result := result
    confidence := confidence, odds := selectionOdds
    stake := stake, profit := profit
    bankroll := (backtestCounters st result predictedWinner).bankroll + profit }

/-- The bet-placing body of the backtest loop (the code after both
threshold guards pass): stake `bankroll × 0.02 × kellyFraction`, settle
the simulated bet against the recorded scores, update the local bankroll,
counters, incremental average odds and the confidence-band bucket, and
append the bet record. -/
def backtestApply (opts : BacktestOptions) (st : BacktestState) (game : Game)
    (predictedWinner : String) (confidence : ℚ) (odds : Odds) : BacktestState :=
  let stake := st.bankroll * (2/100) * opts.kellyFraction
  let selection := predictedWinner
  let selectionOdds := if selection = game.home_team then odds.home else odds.away
  let result := backtestResult game
  let profit := backtestProfit stake selectionOdds result selection
  let st1 := backtestCounters st result selection
  let bet := backtestMkBet opts st game predictedWinner confidence odds
  let totalBets := st1.totalBets + 1
  let confBand : ℚ := (⌊confidence * 10⌋ : ℤ) / 10
  { st1 with
    bankroll := st1.bankroll + profit
    bets := st1.bets ++ [bet]
    totalBets := totalBets
    totalStaked := st1.totalStaked + stake
    totalProfit := st1.totalProfit + profit
    avgOdds := (st1.avgOdds * (totalBets - 1 : ℕ) + selectionOdds) / totalBets
    byConfidence :=
      bumpConfidence st1.byConfidence confBand (result = selection) profit }

/-- The body of the `for (const game of games)` loop of `runBacktest`. -/
def backtestStep (hist : List Game) (sportKey : String) (opts : BacktestOptions)
    (modelWeights : Option ℚ) (now : ℚ) (st : BacktestState) (game : Game) :
    BacktestState :=
  let features := extractFeatures false hist game sportKey now
  let homeProb := calculateHomeWinProbability modelWeights features
  let awayProb := 1 - homeProb
  let predictedWinner := if homeProb > awayProb then game.home_team else game.away_team
  let confidence := if homeProb > awayProb then homeProb else awayProb
  if confidence < opts.minConfidence then st
  else
    let odds := estimateOdds homeProb awayProb game.home_odds game.away_odds
    let ev := calculateEV homeProb awayProb odds
    if ev < opts.minExpectedValue then st
    else backtestApply opts st game predictedWinner confidence odds

/-- JS `array.slice(-n)`: the trailing `n` elements. -/
def takeLast (n : ℕ) (l : List SimBet) : List SimBet := l.drop (l.length - n)

/-- The value returned by a successful `runBacktest`, together with the
final value of the loop's local `bankroll` and the untruncated `bets`
array (locals of the source function, exposed for specification). -/
structure BacktestRun where
  totalBets : ℕ
  wins : ℕ
  losses : ℕ
  pushes : ℕ
  totalStaked : ℚ
  totalProfit : ℚ
  roi : ℚ
  winRate : ℚ
  avgOdds : ℚ
  byConfidence : List (ℚ × ConfBucket)
  sampleSize : ℕ
  dateEarliest : Option ℚ
  dateLatest : Option ℚ
  bets : List SimBet
  finalBankroll : ℚ
  allBets : List SimBet

/-- `runBacktest(sportKey, options)`: `none` models the `return null`
of the not-enough-data branch. -/
def runBacktest (hist : List Game) (sportKey : String) (opts : BacktestOptions)
    (modelWeights : Option ℚ) (now : ℚ) : Option BacktestRun :=
  let games := backtestGames hist sportKey opts
  if games.length < 50 then none
  else
    let final := games.foldl (backtestStep hist sportKey opts modelWeights now) {}
    let total := final.wins + final.losses + final.pushes
    some
      { totalBets := final.totalBets
        wins := final.wins, losses := final.losses, pushes := final.pushes
        totalStaked := final.totalStaked, totalProfit := final.totalProfit
        roi := if final.totalStaked > 0 then
                 final.totalProfit / final.totalStaked * 100 else 0
        winRate := if total > 0 then (final.wins : ℚ) / total * 100 else 0
        avgOdds := final.avgOdds
        byConfidence := final.byConfidence
        sampleSize := games.length
        dateEarliest := games.getLast?.map (·.start_time)
        dateLatest := games.head?.map (·.start_time)
        bets := takeLast 20 final.bets
        finalBankroll := final.bankroll
        allBets := final.bets }

/-! ## MLModel (predictionEngine.js, trained logistic strategy)

Feature normalization is exact rational arithmetic; only the logistic
squashing needs `Real.exp`, so `sigmoid` and `MLpredict` live over ℝ
(and are the only noncomputable definitions in this development). -/

/-- `normalizeFeatures(features)` output. -/
structure NormFeatures where
  homeWinPct : ℚ
  awayWinPct : ℚ
  homeRecentForm : ℚ
  awayRecentForm : ℚ
  homeAdvantage : ℚ
  awayAdvantage : ℚ
  h2hAdvantage : ℚ
  restAdvantage : ℚ
  streakAdvantage : ℚ

/-- `normalizeFeatures(features)` (the `x || d` defaults are JS-falsy). -/
def normalizeFeatures (f : Features) : NormFeatures :=
  { homeWinPct := jsOr f.homeWinPct (1/2)
    awayWinPct := jsOr f.awayWinPct (1/2)
    homeRecentForm := jsOr f.homeRecentWinPct (1/2)
    awayRecentForm := jsOr f.awayRecentWinPct (1/2)
    homeAdvantage := (f.homeWinPctHome - 1/2) * 2
    awayAdvantage := (f.awayWinPctAway - 1/2) * 2
    h2hAdvantage := (f.h2hHomeWins - f.h2hAwayWins) / jsOr f.h2hTotal 1
    restAdvantage := max (-1) (min 1 f.homeRestAdvantage)
    streakAdvantage := max (-1) (min 1 ((f.homeStreak - f.awayStreak) / 3)) }

/-- The trained weight vector (one weight per normalized feature). -/
structure MLWeights where
  homeWinPct : ℝ
  awayWinPct : ℝ
  homeRecentForm : ℝ
  awayRecentForm : ℝ
  homeAdvantage : ℝ
  h2hAdvantage : ℝ
  restAdvantage : ℝ
  streakAdvantage : ℝ

structure MLState where
  weights : MLWeights
  bias : ℝ
  isTrained : Bool

/-- `sigmoid(x) = 1 / (1 + e^(−x))`. -/
noncomputable def sigmoid (x : ℝ) : ℝ := 1 / (1 + Real.exp (-x))

/-- `MLModel.predict(features)` result; the untrained fallback object has
no `awayWinProb` property, hence the `Option`. -/
structure MLPrediction where
  homeWinProb : ℝ
  awayWinProb : Option ℝ
  confidence : ℝ

/-- The linear score of `MLModel.predict`. -/
noncomputable def mlScore (st : MLState) (n : NormFeatures) : ℝ :=
  st.bias
    + (n.homeWinPct : ℝ) * st.weights.homeWinPct
    + (n.awayWinPct : ℝ) * st.weights.awayWinPct
    + (n.homeRecentForm : ℝ) * st.weights.homeRecentForm
    + (n.awayRecentForm : ℝ) * st.weights.awayRecentForm
    + (n.homeAdvantage : ℝ) * st.weights.homeAdvantage
    + (n.h2hAdvantage : ℝ) * st.weights.h2hAdvantage
    + (n.restAdvantage : ℝ) * st.weights.restAdvantage
    + (n.streakAdvantage : ℝ) * st.weights.streakAdvantage

/-- `MLModel.predict(features)`. -/
noncomputable def MLpredict (st : MLState) (f : Features) : MLPrediction :=
  if st.isTrained then
    let homeWinProb := sigmoid (mlScore st (normalizeFeatures f))
    let awayWinProb := 1 - homeWinProb
    { homeWinProb := homeWinProb, awayWinProb := some awayWinProb
      confidence := max homeWinProb awayWinProb }
  else { homeWinProb := 1/2, awayWinProb := none, confidence := 1/2 }

/-- The labelled samples kept by `MLModel.train`'s data-preparation loop
(`if (!game.home_score || !game.away_score) continue`). -/
def trainLabeled (data : List Game) : List Game :=
  data.filter (fun g => jsTruthy g.home_score && jsTruthy g.away_score)

/-- `MLModel.train`'s insufficient-data gate: the source returns `false`
("not trained") exactly when fewer than 10 labelled samples survive the
preparation loop, and otherwise runs the randomized SGD loop and returns
a result object.  The weight-trajectory itself is randomized
(`Math.random()` initialization) and is not modelled; only the number of
samples is carried, which is all the gate claims concern. -/
def MLtrain (data : List Game) : Option ℕ :=
  let labeled := trainLabeled data
  if labeled.length < 10 then none
  else some labeled.length

/-! ## Concrete inputs used by the witnesses and counterexamples -/

/-- A completed A-vs-B home-win game at time `i+1` (milliseconds). -/
def demoGame (i : ℕ) : Game :=
  { id := toString i, sport := "s", home_team := "A", away_team := "B"
    start_time := (i : ℚ) + 1, home_score := some 2, away_score := some 1 }

/-- Fifty completed games between the same two teams, times 1..50. -/
def demoHist : List Game := (List.range 50).map demoGame

/-- Thirty completed (labelled) games. -/
def demoHist30 : List Game := (List.range 30).map demoGame

/-- A trained model state with bias 3 and zero weights. -/
def mlDemoState : MLState :=
  { weights := ⟨0, 0, 0, 0, 0, 0, 0, 0⟩, bias := 3, isTrained := true }

/-- Concrete settlement scenario used by witnesses: one completed game
and one pending bet on its winner. -/
def demoSettleGames : List Game :=
  [⟨"g1", "s", "H", "Aw", 1, some 2, some 1, none, none, "completed"⟩]

def demoSettleBets : List PaperBet := [⟨"g1", 10, 2, "H", "pending", 0⟩]

def demoSettleState : BetState := ⟨1000, 1, 0, 0, 0, 10, 0⟩

/-- The demo history minus its newest game, in descending start order
(the tail of the list the backtest iterates over). -/
def rest49 : List Game := ((List.range 49).reverse).map demoGame

/-- The fields of a simulated bet the staking claims talk about: stake,
accepted odds, confidence, and the local bankroll at placement
(the recorded `bankroll` minus the recorded `profit`). -/
def simBetSummary (b : SimBet) : ℚ × ℚ × ℚ × ℚ :=
  (b.stake, b.odds, b.confidence, b.bankroll - b.profit)

/-- A placeholder `BacktestRun` (never produced by a successful run). -/
def dummyRun : BacktestRun :=
  { totalBets := 0, wins := 0, losses := 0, pushes := 0, totalStaked := 0
    totalProfit := 0, roi := 0, winRate := 0, avgOdds := 0, byConfidence := []
    sampleSize := 0, dateEarliest := none, dateLatest := none, bets := []
    finalBankroll := 0, allBets := [] }

/-- The successful backtest run over the demo history. -/
def demoRun : BacktestRun :=
  (runBacktest demoHist "s" {} none 100).getD dummyRun

/-- A concrete ledger history: place a bet, then settle it. -/
def demoOps : List LedgerOp :=
  [LedgerOp.place "g1" 50 2 "H", LedgerOp.settle demoSettleGames]

/-- Neutral feature vector except for a home losing streak of 5
(differentials all zero, no rest advantage). -/
def streakFeatures : Features :=
  { homeWinPct := 1/2, awayWinPct := 1/2
    homeAvgScore := 110, awayAvgScore := 108
    homeAvgConceded := 108, awayAvgConceded := 110
    homeWinPctHome := 1/2, awayWinPctAway := 1/2
    homeRecentWinPct := 1/2, awayRecentWinPct := 1/2
    h2hHomeWins := 0, h2hAwayWins := 0, h2hTotal := 1
    homeRestDays := 2, awayRestDays := 2, homeRestAdvantage := 0
    homeStreak := -5, awayStreak := 0
    sport := "basketball_nba", valid := true }

/-! ## Reference definitions taken from the specification's words
(for the claims that compare the code against a spec formula) -/

/-- Two-sided clamp, `max lo (min hi x)`. -/
def clamp (lo hi x : ℚ) : ℚ := max lo (min hi x)

/-- The specification's fractional-Kelly stake: `b = odds − 1`; skip
(stake 0) when `b ≤ 0`; otherwise
`min (bankroll · max 0 (((b·p − (1−p))/b) · kellyFraction)) (bankroll · maxStakePct)`. -/
def specKellyStake (p odds bankroll kellyFraction maxStakePct : ℚ) : ℚ :=
  let b := odds - 1
  if b ≤ 0 then 0
  else
    min (bankroll * max 0 ((b * p - (1 - p)) / b * kellyFraction))
        (bankroll * maxStakePct)

/-- The specification's heuristic home-win probability, with each side's
streak clamped to [−3, 3] on both sides as the claim states. -/
def specHomeWinProbability (f : Features) : ℚ :=
  clamp (1/4) (17/20)
    (1/2 + 3/100
      + (f.homeRecentWinPct - f.awayRecentWinPct) * (15/100)
      + (f.homeWinPct - f.awayWinPct) * (10/100)
      + (f.homeWinPctHome - f.awayWinPctAway) * (10/100)
      + (f.h2hHomeWins - f.h2hAwayWins) / max f.h2hTotal 1 * (5/100)
      + f.homeRestAdvantage * (3/100)
      + (clamp (-3) 3 f.homeStreak - clamp (-3) 3 f.awayStreak) * (1/100))

/-- The heuristic formula the code actually computes, written in the
spec's style: the home streak is clamped only from above at 3 and the
away streak only from below at −3. -/
def specHomeWinProbabilityAmended (f : Features) : ℚ :=
  clamp (1/4) (17/20)
    (1/2 + 3/100
      + (f.homeRecentWinPct - f.awayRecentWinPct) * (15/100)
      + (f.homeWinPct - f.awayWinPct) * (10/100)
      + (f.homeWinPctHome - f.awayWinPctAway) * (10/100)
      + (f.h2hHomeWins - f.h2hAwayWins) / max f.h2hTotal 1 * (5/100)
      + f.homeRestAdvantage * (3/100)
      + (min f.homeStreak 3 - max f.awayStreak (-3)) * (1/100))

/-! ## Helper lemmas -/

/-- A predicate preserved by each step of a left fold holds at the end. -/
theorem foldlPreserves {α β : Type} (f : β → α → β) (P : β → Prop)
    (step : ∀ b a, P b → P (f b a)) :
    ∀ (l : List α) (b : β), P b → P (l.foldl f b) := by
  intro l
  induction l with
  | nil => intro b h; exact h
  | cons a t ih => intro b h; exact ih (f b a) (step b a h)

/-! ## C2 — StakeSizer (calculateKellyStake) -/

/-- C2 counterexample: the claim quantifies over every bankroll, but on a
negative bankroll the stake is negative: probability 0.6, odds 1.90,
bankroll −100 yields stake −5 < 0. -/
theorem kelly_stake_negative_bankroll :
    calculateKellyStake defaultConfig (6/10) (19/10) (-100) = -5 ∧
    ((-5 : ℚ) < 0) := by
  exact ⟨by with_unfolding_all decide, by norm_num⟩

/-- C2 (amended): `calculateKellyStake` equals the reference
fractional-Kelly definition for all inputs; for every probability and
odds and every *non-negative* bankroll the result is non-negative and
never exceeds `bankroll × maxStakePct`; and on probability 0.6,
odds 1.90, bankroll 1000 it returns exactly `1000 × (0.14/0.9) × 0.25`
(≈ 38.89), below the 50.00 cap. -/
theorem kelly_stake_spec_amended :
    (∀ p odds bankroll : ℚ,
      calculateKellyStake defaultConfig p odds bankroll =
        specKellyStake p odds bankroll (25/100) (5/100)) ∧
    (∀ p odds bankroll : ℚ, 0 ≤ bankroll →
      0 ≤ calculateKellyStake defaultConfig p odds bankroll ∧
      calculateKellyStake defaultConfig p odds bankroll ≤ bankroll * (5/100)) ∧
    calculateKellyStake defaultConfig (6/10) (19/10) 1000 =
      1000 * ((14/100) / (9/10)) * (25/100) ∧
    1000 * ((14/100) / (9/10)) * (25/100) < 50 := by
  refine ⟨?_, ?_, by with_unfolding_all decide, by norm_num⟩
  · intro p odds bankroll
    rfl
  · intro p odds bankroll hb
    unfold calculateKellyStake
    simp only [defaultConfig]
    split
    · exact ⟨le_refl 0, by positivity⟩
    · constructor
      · exact le_min (mul_nonneg hb (le_max_left 0 _)) (by positivity)
      · exact min_le_right _ _

/-- C2 witness: the amended bounds instantiated at probability 0.6,
odds 1.90, bankroll 1000. -/
theorem kelly_stake_witness :
    (0 : ℚ) ≤ 1000 ∧
    (0 ≤ calculateKellyStake defaultConfig (6/10) (19/10) 1000 ∧
     calculateKellyStake defaultConfig (6/10) (19/10) 1000 ≤ 1000 * (5/100)) :=
  ⟨by norm_num, kelly_stake_spec_amended.2.1 (6/10) (19/10) 1000 (by norm_num)⟩

/-! ## C5 — heuristic home-win probability formula -/

/-- C5 counterexample: with a home losing streak of 5 (all other
contributions neutral) the code yields 0.48 while the claimed formula,
whose streaks are clamped to [−3, 3] on both sides, yields 0.50: the
code clamps the home streak only from above (`Math.min(homeStreak, 3)`)
and the away streak only from below (`Math.max(awayStreak, −3)`). -/
theorem home_streak_clamp_mismatch :
    calculateHomeWinProbability none streakFeatures = 12/25 ∧
    specHomeWinProbability streakFeatures = 1/2 ∧
    calculateHomeWinProbability none streakFeatures ≠
      specHomeWinProbability streakFeatures := by
  refine ⟨?_, ?_, ?_⟩ <;> with_unfolding_all decide

/-- C5 (amended): the heuristic home-win probability is 0.5 plus the fixed
0.03 home edge, recent-form differential × 0.15, overall win-rate
differential × 0.10, home/away split differential × 0.10, head-to-head
differential normalized by total meetings × 0.05, rest advantage × 0.03,
and streak differential × 0.01 where the home streak is clamped only from
above at 3 and the away streak only from below at −3, the sum clamped to
[0.25, 0.85]. -/
theorem home_win_probability_formula_amended :
    ∀ f : Features,
      calculateHomeWinProbability none f = specHomeWinProbabilityAmended f := by
  intro f
  unfold calculateHomeWinProbability specHomeWinProbabilityAmended clamp
  ring_nf

/-! ## C9 — FeatureExtractor defaults -/

/-- C9 counterexample: with an empty history and no data-access error,
`extractFeatures` returns a vector with `valid = true`, not the claimed
`valid = false` (the flag records only the absence of an error). -/
theorem zero_history_valid_true :
    ¬ ((extractFeatures false [] (demoGame 0) "s" 100).valid = false) := by
  with_unfolding_all decide

set_option maxHeartbeats 2000000 in
set_option maxRecDepth 10000 in
/-- C9 (amended): any data-access error yields the default feature vector
with `valid = false`; a team with zero historical games and no error
yields the same neutral values (0.5 win percentages, 2 days rest, zero
head-to-head wins, zero streak, zero rest advantage) computed normally,
but with `valid = true` rather than `valid = false`. -/
theorem feature_extractor_defaults_amended :
    (∀ (hist : List Game) (game : Game) (sport : String) (now : ℚ),
      extractFeatures true hist game sport now = getDefaultFeatures sport ∧
      (getDefaultFeatures sport).valid = false) ∧
    (∀ (game : Game) (sport : String) (now : ℚ),
      (extractFeatures false [] game sport now).homeWinPct = 1/2 ∧
      (extractFeatures false [] game sport now).awayWinPct = 1/2 ∧
      (extractFeatures false [] game sport now).homeWinPctHome = 1/2 ∧
      (extractFeatures false [] game sport now).awayWinPctAway = 1/2 ∧
      (extractFeatures false [] game sport now).homeRecentWinPct = 1/2 ∧
      (extractFeatures false [] game sport now).awayRecentWinPct = 1/2 ∧
      (extractFeatures false [] game sport now).h2hHomeWins = 0 ∧
      (extractFeatures false [] game sport now).h2hAwayWins = 0 ∧
      (extractFeatures false [] game sport now).homeRestDays = 2 ∧
      (extractFeatures false [] game sport now).awayRestDays = 2 ∧
      (extractFeatures false [] game sport now).homeRestAdvantage = 0 ∧
      (extractFeatures false [] game sport now).homeStreak = 0 ∧
      (extractFeatures false [] game sport now).awayStreak = 0 ∧
      (extractFeatures false [] game sport now).valid = true) := by
  constructor
  · intro hist game sport now
    exact ⟨rfl, rfl⟩
  · intro game sport now
    refine ⟨?_, ?_, ?_, ?_, ?_, ?_, ?_, ?_, ?_, ?_, ?_, ?_, ?_, ?_⟩ <;>
      with_unfolding_all rfl

/-! ## C8 — insufficient-data gates -/

/-- C8 counterexample: `MLModel.train` on 30 labelled samples (fewer than
the claimed minimum of 50) does not fail — its gate is at 10. -/
theorem training_gate_below_fifty :
    MLtrain demoHist30 = some 30 ∧ (trainLabeled demoHist30).length < 50 := by
  exact ⟨by with_unfolding_all rfl, by with_unfolding_all decide⟩

/-- C8 (amended): the backtest returns the explicit `null` failure
whenever fewer than 50 completed contests match the filters, and
`MLModel.train` returns its explicit "not trained" failure exactly when
fewer than 10 labelled samples are available (not 50). -/
theorem insufficient_data_gates_amended :
    (∀ (hist : List Game) (sportKey : String) (opts : BacktestOptions)
       (mw : Option ℚ) (now : ℚ),
      (backtestGames hist sportKey opts).length < 50 →
      runBacktest hist sportKey opts mw now = none) ∧
    (∀ data : List Game,
      MLtrain data = none ↔ (trainLabeled data).length < 10) := by
  constructor
  · intro hist sk opts mw now h
    unfold runBacktest
    rw [if_pos h]
  · intro data
    by_cases h : (trainLabeled data).length < 10 <;> simp [MLtrain, h]

/-- C8 witness: a 30-game sample fails the backtest gate, and an empty
sample fails the training gate. -/
theorem insufficient_data_gates_witness :
    runBacktest demoHist30 "s" {} none 100 = none ∧ MLtrain [] = none :=
  ⟨insufficient_data_gates_amended.1 demoHist30 "s" {} none 100
      (by with_unfolding_all decide),
   (insufficient_data_gates_amended.2 []).mpr (by with_unfolding_all decide)⟩

/-! ## C6 — settlement classification and accounting -/

theorem settleCounters_bankroll (g : Game) (b : PaperBet) (st : BetState) :
    (settleCounters g b st).bankroll = st.bankroll := by
  unfold settleCounters; split <;> try split
  all_goals rfl

theorem settleCounters_totalProfit (g : Game) (b : PaperBet) (st : BetState) :
    (settleCounters g b st).totalProfit = st.totalProfit := by
  unfold settleCounters; split <;> try split
  all_goals rfl

/-- C6: the settlement pass applies `settleOne` to every pending wager
whose joined game is completed, and for every wager so settled against a
completed game with scores `hs`/`as` (team names distinct from the
`"push"` sentinel), the outcome is classified home / away / push by
comparing the scores; the profit is `stake×(odds−1)` on a win, `−stake`
on a loss, `0` on a push; the bankroll grows by `stake + profit`; and
the win/loss/push and total-profit counters update accordingly. -/
theorem settlement_classification :
    (∀ (games : List Game) (b : PaperBet) (rest : List PaperBet)
       (st : BetState) (g : Game),
      shouldSettle games b = true → findGame games b.game_id = some g →
      settleBets games (b :: rest) st
        = ((settleOne g b st).1 ::
            (settleBets games rest (settleOne g b st).2).1,
           (settleBets games rest (settleOne g b st).2).2)) ∧
    ∀ (g : Game) (b : PaperBet) (st : BetState) (hs as : ℚ),
      g.home_score = some hs → g.away_score = some as →
      g.home_team ≠ "push" → g.away_team ≠ "push" →
      ((settleOne g b st).2.bankroll
          = st.bankroll + b.stake + (settleOne g b st).1.profit) ∧
      ((settleOne g b st).2.totalProfit
          = st.totalProfit + (settleOne g b st).1.profit) ∧
      (hs > as → (settleOne g b st).1.result = g.home_team) ∧
      (as > hs → (settleOne g b st).1.result = g.away_team) ∧
      (hs = as → (settleOne g b st).1.result = "push" ∧
        (settleOne g b st).1.profit = 0 ∧
        (settleOne g b st).2.pushes = st.pushes + 1 ∧
        (settleOne g b st).2.wins = st.wins ∧
        (settleOne g b st).2.losses = st.losses) ∧
      (hs ≠ as →
        ((settleOne g b st).1.result = b.selection →
          (settleOne g b st).1.profit = b.stake * (b.odds - 1) ∧
          (settleOne g b st).2.wins = st.wins + 1 ∧
          (settleOne g b st).2.pushes = st.pushes ∧
          (settleOne g b st).2.losses = st.losses) ∧
        ((settleOne g b st).1.result ≠ b.selection →
          (settleOne g b st).1.profit = -b.stake ∧
          (settleOne g b st).2.losses = st.losses + 1 ∧
          (settleOne g b st).2.pushes = st.pushes ∧
          (settleOne g b st).2.wins = st.wins)) := by
  constructor
  · intro games b rest st g hss hfind
    simp [settleBets, hss, hfind]
  intro g b st hs as hh ha hhp hap
  have hgt : jsGt g.home_score g.away_score = decide (hs > as) := by
    rw [hh, ha]; rfl
  have hgt' : jsGt g.away_score g.home_score = decide (as > hs) := by
    rw [hh, ha]; rfl
  refine ⟨?_, ?_, ?_, ?_, ?_, ?_⟩
  · simp [settleOne, settleCounters_bankroll]
  · simp [settleOne, settleCounters_totalProfit]
  · intro h
    simp [settleOne, settleResult, hgt, hgt', h]
  · intro h
    have hnot : ¬ hs > as := by exact not_lt_of_gt h
    simp [settleOne, settleResult, hgt, hgt', h, hnot]
  · intro h
    subst h
    have hres0 : settleResult g = "push" := by
      unfold settleResult
      rw [hgt, hgt']
      simp [lt_irrefl]
    have hprofit : settleProfit g b = 0 := by
      unfold settleProfit; rw [if_pos hres0]
    have hcnt : settleCounters g b st = { st with pushes := st.pushes + 1 } := by
      unfold settleCounters; rw [if_pos hres0]
    refine ⟨?_, ?_, ?_, ?_, ?_⟩ <;> simp [settleOne, hres0, hprofit, hcnt]
  · intro h
    have hres : (settleOne g b st).1.result = settleResult g := rfl
    have hpush : settleResult g ≠ "push" := by
      unfold settleResult
      rw [hgt, hgt']
      rcases lt_or_gt_of_ne h with hlt | hgt2
      · simp [not_lt_of_gt hlt, hlt, hap]
      · simp [hgt2, hhp]
    constructor
    · intro hwin
      rw [hres] at hwin
      have hprofit : settleProfit g b = b.stake * (b.odds - 1) := by
        unfold settleProfit; rw [if_neg hpush, if_pos hwin]
      have hcnt : settleCounters g b st = { st with wins := st.wins + 1 } := by
        unfold settleCounters; rw [if_neg hpush, if_pos hwin]
      refine ⟨?_, ?_, ?_, ?_⟩ <;> simp [settleOne, hprofit, hcnt]
    · intro hlose
      rw [hres] at hlose
      have hprofit : settleProfit g b = -b.stake := by
        unfold settleProfit; rw [if_neg hpush, if_neg hlose]
      have hcnt : settleCounters g b st = { st with losses := st.losses + 1 } := by
        unfold settleCounters; rw [if_neg hpush, if_neg hlose]
      refine ⟨?_, ?_, ?_, ?_⟩ <;> simp [settleOne, hprofit, hcnt]

/-- C6 witness: scores 110–101 settle a won home bet; the instantiated
classification, profit and counter facts. -/
theorem settlement_classification_witness :
    ((settleOne ⟨"g1", "s", "H", "Aw", 1, some 110, some 101, none, none,
        "completed"⟩ ⟨"g1", 10, 2, "H", "pending", 0⟩ ⟨1000, 1, 0, 0, 0, 10, 0⟩).2.bankroll
      = (1000 : ℚ) + 10 +
        (settleOne ⟨"g1", "s", "H", "Aw", 1, some 110, some 101, none, none,
          "completed"⟩ ⟨"g1", 10, 2, "H", "pending", 0⟩ ⟨1000, 1, 0, 0, 0, 10, 0⟩).1.profit) ∧
    ((110 : ℚ) > 101 →
      (settleOne ⟨"g1", "s", "H", "Aw", 1, some 110, some 101, none, none,
        "completed"⟩ ⟨"g1", 10, 2, "H", "pending", 0⟩ ⟨1000, 1, 0, 0, 0, 10, 0⟩).1.result = "H") := by
  have h := settlement_classification.2
    ⟨"g1", "s", "H", "Aw", 1, some 110, some 101, none, none, "completed"⟩
    ⟨"g1", 10, 2, "H", "pending", 0⟩ ⟨1000, 1, 0, 0, 0, 10, 0⟩
    110 101 rfl rfl (by decide) (by decide)
  exact ⟨h.1, h.2.2.1⟩

/-! ## C7 — settlement idempotence -/

theorem settleBets_skip_all (games : List Game) :
    ∀ (bets : List PaperBet) (st : BetState),
      (∀ b ∈ bets, shouldSettle games b = false) →
      settleBets games bets st = (bets, st) := by
  intro bets
  induction bets with
  | nil => intro st _; rfl
  | cons b rest ih =>
    intro st h
    have hb : shouldSettle games b = false := h b (List.mem_cons_self b rest)
    have hrest : ∀ b' ∈ rest, shouldSettle games b' = false := by
      intro b' hb'; exact h b' (List.mem_cons_of_mem b hb')
    simp [settleBets, hb, ih st hrest]

theorem settleOne_game_id (g : Game) (b : PaperBet) (st : BetState) :
    (settleOne g b st).1.game_id = b.game_id := rfl

theorem settleResult_cases (g : Game) :
    settleResult g = g.home_team ∨ settleResult g = g.away_team ∨
      settleResult g = "push" := by
  unfold settleResult
  split
  · exact Or.inl rfl
  · split
    · exact Or.inr (Or.inl rfl)
    · exact Or.inr (Or.inr rfl)

theorem settleOne_not_pending (games : List Game) (g : Game) (b : PaperBet)
    (st : BetState)
    (hg : ∀ g' ∈ games, g'.home_team ≠ "pending" ∧ g'.away_team ≠ "pending")
    (hf : findGame games b.game_id = some g) :
    (settleOne g b st).1.result ≠ "pending" := by
  have hmem : g ∈ games := List.mem_of_find?_eq_some hf
  have hres : (settleOne g b st).1.result = settleResult g := rfl
  rw [hres]
  rcases settleResult_cases g with h | h | h <;> rw [h]
  · exact (hg g hmem).1
  · exact (hg g hmem).2
  · decide

theorem settleBets_output_skip (games : List Game)
    (hg : ∀ g' ∈ games, g'.home_team ≠ "pending" ∧ g'.away_team ≠ "pending") :
    ∀ (bets : List PaperBet) (st : BetState),
      ∀ b' ∈ (settleBets games bets st).1, shouldSettle games b' = false := by
  intro bets
  induction bets with
  | nil => intro st b' hb'; simp [settleBets] at hb'
  | cons b rest ih =>
    intro st b' hb'
    by_cases hss : shouldSettle games b = true
    · rcases hfind : findGame games b.game_id with _ | g
      · exfalso
        unfold shouldSettle at hss
        rw [hfind] at hss
        simp at hss
      · simp only [settleBets, hss, if_true, hfind] at hb'
        rcases List.mem_cons.mp hb' with hhead | htail
        · subst hhead
          have := settleOne_not_pending games g b st hg hfind
          unfold shouldSettle
          simp [this]
        · exact ih _ b' htail
    · have hss' : shouldSettle games b = false := by
        cases hv : shouldSettle games b
        · rfl
        · exact absurd hv hss
      simp only [settleBets, hss', Bool.false_eq_true, if_false] at hb'
      rcases List.mem_cons.mp hb' with hhead | htail
      · subst hhead; exact hss'
      · exact ih _ b' htail

/-- C7: re-running settlement on an already-settled ledger is a no-op:
after one `settleBets` pass (over games whose team names are not the
`"pending"` sentinel), running `settleBets` again changes neither the
wagers, nor the bankroll, nor any counter. -/
theorem settlement_idempotent :
    ∀ (games : List Game) (bets : List PaperBet) (st : BetState),
      (∀ g ∈ games, g.home_team ≠ "pending" ∧ g.away_team ≠ "pending") →
      settleBets games (settleBets games bets st).1 (settleBets games bets st).2
        = settleBets games bets st := by
  intro games bets st hg
  rw [settleBets_skip_all games _ _ (settleBets_output_skip games hg bets st)]

/-- C7 witness: idempotence instantiated on the concrete scenario. -/
theorem settlement_idempotent_witness :
    settleBets demoSettleGames
      (settleBets demoSettleGames demoSettleBets demoSettleState).1
      (settleBets demoSettleGames demoSettleBets demoSettleState).2
      = settleBets demoSettleGames demoSettleBets demoSettleState :=
  settlement_idempotent demoSettleGames demoSettleBets demoSettleState
    (by decide)

/-! ## C4 — prediction probability invariants -/

theorem calculateHomeWinProbability_bounds (w : Option ℚ) (f : Features) :
    1/4 ≤ calculateHomeWinProbability w f ∧
      calculateHomeWinProbability w f ≤ 17/20 := by
  unfold calculateHomeWinProbability
  constructor
  · exact le_max_left _ _
  · exact max_le (by norm_num) (min_le_left _ _)

theorem sigmoid_pos (x : ℝ) : 0 < sigmoid x := by
  unfold sigmoid
  have h := Real.exp_pos (-x)
  positivity

theorem sigmoid_lt_one (x : ℝ) : sigmoid x < 1 := by
  unfold sigmoid
  have h := Real.exp_pos (-x)
  rw [div_lt_one (by linarith)]
  linarith

/-- C4 counterexample: a trained model state (bias 3, zero weights) whose
prediction has confidence `1/(1+e^{−3})` ≈ 0.953 > 0.85: `MLModel.predict`
does not clamp its confidence to [0.25, 0.85]. -/
theorem ml_confidence_exceeds_bound :
    mlDemoState.isTrained = true ∧
    (17/20 : ℝ) < (MLpredict mlDemoState (getDefaultFeatures "s")).confidence := by
  constructor
  · rfl
  · have hexp3 : (17 : ℝ)/3 < Real.exp 3 := by
      have h1 := Real.exp_one_gt_d9
      have h3 : Real.exp 3 = Real.exp 1 * Real.exp 1 * Real.exp 1 := by
        rw [← Real.exp_add, ← Real.exp_add]; norm_num
      rw [h3]
      nlinarith [Real.exp_pos 1]
    have hscore : mlScore mlDemoState (normalizeFeatures (getDefaultFeatures "s")) = 3 := by
      unfold mlScore mlDemoState
      norm_num
    have hs3 : sigmoid 3 > 17/20 := by
      unfold sigmoid
      have hepos := Real.exp_pos (-3 : ℝ)
      have hlt : Real.exp (-3 : ℝ) < 3/17 := by
        rw [Real.exp_neg]
        rw [inv_lt_iff_one_lt_mul₀ (by positivity)]
        nlinarith [hexp3]
      rw [gt_iff_lt, lt_div_iff₀ (by linarith)]
      linarith
    have hconf : (MLpredict mlDemoState (getDefaultFeatures "s")).confidence
        = max (sigmoid (mlScore mlDemoState (normalizeFeatures (getDefaultFeatures "s"))))
            (1 - sigmoid (mlScore mlDemoState (normalizeFeatures (getDefaultFeatures "s")))) := rfl
    rw [hconf, hscore]
    calc (17/20 : ℝ) < sigmoid 3 := hs3
      _ ≤ max (sigmoid 3) (1 - sigmoid 3) := le_max_left _ _

/-- C4 (amended): the heuristic `predict` satisfies all claimed
invariants — `awayProb = 1 − homeProb` exactly, probabilities summing to
1, `confidence = max(homeProb, awayProb)` lying in [0.25, 0.85].  The
trained `MLModel.predict` also returns `awayProb = 1 − homeProb` and
`confidence = max(homeProb, awayProb)`, but its confidence is NOT clamped
to [0.25, 0.85]: it only satisfies `1/2 ≤ confidence < 1`. -/
theorem prediction_probability_invariants_amended :
    (∀ (w : Option ℚ) (dbError : Bool) (hist : List Game) (game : Game)
       (sport : String) (now : ℚ) (bestOdds : Odds),
      (predict w dbError hist game sport now bestOdds).awayWinProb
          = 1 - (predict w dbError hist game sport now bestOdds).homeWinProb ∧
      (predict w dbError hist game sport now bestOdds).homeWinProb
          + (predict w dbError hist game sport now bestOdds).awayWinProb = 1 ∧
      (predict w dbError hist game sport now bestOdds).confidence
          = max (predict w dbError hist game sport now bestOdds).homeWinProb
              (predict w dbError hist game sport now bestOdds).awayWinProb ∧
      1/4 ≤ (predict w dbError hist game sport now bestOdds).confidence ∧
      (predict w dbError hist game sport now bestOdds).confidence ≤ 17/20) ∧
    (∀ (st : MLState) (f : Features), st.isTrained = true →
      (MLpredict st f).awayWinProb = some (1 - (MLpredict st f).homeWinProb) ∧
      (MLpredict st f).confidence
          = max (MLpredict st f).homeWinProb (1 - (MLpredict st f).homeWinProb) ∧
      1/2 ≤ (MLpredict st f).confidence ∧ (MLpredict st f).confidence < 1) := by
  constructor
  · intro w dbError hist game sport now bestOdds
    set p := calculateHomeWinProbability w
      (extractFeatures dbError hist game sport now) with hp
    have hbounds := calculateHomeWinProbability_bounds w
      (extractFeatures dbError hist game sport now)
    have hhome : (predict w dbError hist game sport now bestOdds).homeWinProb = p := rfl
    have haway : (predict w dbError hist game sport now bestOdds).awayWinProb = 1 - p := rfl
    have hconf : (predict w dbError hist game sport now bestOdds).confidence
        = if p > 1 - p then p else 1 - p := rfl
    refine ⟨by rw [haway, hhome], by rw [haway, hhome]; ring, ?_, ?_, ?_⟩
    · rw [hconf, hhome, haway]
      by_cases h : p > 1 - p
      · rw [if_pos h, max_eq_left (le_of_lt h)]
      · rw [if_neg h, max_eq_right (le_of_not_lt h)]
    · rw [hconf]
      by_cases h : p > 1 - p
      · rw [if_pos h]; exact hbounds.1
      · rw [if_neg h]; have := hbounds.1; linarith
    · rw [hconf]
      by_cases h : p > 1 - p
      · rw [if_pos h]; exact hbounds.2
      · rw [if_neg h]; have := hbounds.1; linarith
  · intro st f htr
    have hp0 := sigmoid_pos (mlScore st (normalizeFeatures f))
    have hp1 := sigmoid_lt_one (mlScore st (normalizeFeatures f))
    set p := sigmoid (mlScore st (normalizeFeatures f)) with hp
    have hhome : (MLpredict st f).homeWinProb = p := by
      unfold MLpredict; rw [if_pos htr]
    have haway : (MLpredict st f).awayWinProb = some (1 - p) := by
      unfold MLpredict; rw [if_pos htr]
    have hconf : (MLpredict st f).confidence = max p (1 - p) := by
      unfold MLpredict; rw [if_pos htr]
    refine ⟨by rw [haway, hhome], by rw [hconf, hhome], ?_, ?_⟩
    · rw [hconf]
      rcases le_total p (1 - p) with h | h
      · rw [max_eq_right h]; linarith
      · rw [max_eq_left h]; linarith
    · rw [hconf]
      exact max_lt hp1 (by linarith)

/-- C4 witness: the amended invariants instantiated for a heuristic
prediction on the demo history and for the trained demo model state. -/
theorem prediction_probability_invariants_witness :
    ((predict none false demoHist (demoGame 0) "s" 100 ⟨19/10, 19/10⟩).awayWinProb
        = 1 - (predict none false demoHist (demoGame 0) "s" 100 ⟨19/10, 19/10⟩).homeWinProb ∧
      1/4 ≤ (predict none false demoHist (demoGame 0) "s" 100 ⟨19/10, 19/10⟩).confidence ∧
      (predict none false demoHist (demoGame 0) "s" 100 ⟨19/10, 19/10⟩).confidence ≤ 17/20) ∧
    ((MLpredict mlDemoState streakFeatures).awayWinProb
        = some (1 - (MLpredict mlDemoState streakFeatures).homeWinProb) ∧
      (MLpredict mlDemoState streakFeatures).confidence < 1) := by
  have h1 := prediction_probability_invariants_amended.1 none false demoHist
    (demoGame 0) "s" 100 ⟨19/10, 19/10⟩
  have h2 := prediction_probability_invariants_amended.2 mlDemoState
    streakFeatures rfl
  exact ⟨⟨h1.1, h1.2.2.2.1, h1.2.2.2.2⟩, ⟨h2.1, h2.2.2.2⟩⟩

/-! ## C1 — backtest replay order and lookahead -/

set_option maxHeartbeats 4000000 in
set_option maxRecDepth 100000 in
/-- C1 (code bug evidence): on the 50-game demo history the backtest
evaluates the newest contest first (start time 50) and the oldest last
(start time 1) — `ORDER BY start_time DESC` with no reversal; the
recent-form window consulted by the feature engine is the global ten
most-recent completed games, so when the oldest contest is evaluated the
window consists entirely of strictly later contests and includes the
newest one; and the feature vector is entirely independent of the
evaluated contest's start time (the queries have no `start_time < asOf`
cutoff), so it uses the evaluated contest's own outcome. -/
theorem backtest_replay_lookahead :
    ((backtestGames demoHist "s" {}).head?.map (·.start_time) = some 50 ∧
     (backtestGames demoHist "s" {}).getLast?.map (·.start_time) = some 1) ∧
    ((recentWindow demoHist "A" "s" 10).all
        (fun g => decide (1 < g.start_time)) = true ∧
     (recentWindow demoHist "A" "s" 10).any
        (fun g => decide (g.start_time = 50)) = true) ∧
    extractFeatures false demoHist (demoGame 0) "s" 100
      = extractFeatures false demoHist (demoGame 49) "s" 100 := by
  refine ⟨⟨?_, ?_⟩, ⟨?_, ?_⟩, ?_⟩ <;> with_unfolding_all rfl

/-! ## C3 — backtest staking rule -/

theorem backtestCounters_bankroll (st : BacktestState) (r s : String) :
    (backtestCounters st r s).bankroll = st.bankroll := by
  unfold backtestCounters; split <;> try split
  all_goals rfl

theorem backtestCounters_bets (st : BacktestState) (r s : String) :
    (backtestCounters st r s).bets = st.bets := by
  unfold backtestCounters; split <;> try split
  all_goals rfl

theorem backtestApply_bets (opts : BacktestOptions) (st : BacktestState)
    (game : Game) (pw : String) (conf : ℚ) (odds : Odds) :
    (backtestApply opts st game pw conf odds).bets
      = st.bets ++ [backtestMkBet opts st game pw conf odds] := by
  unfold backtestApply
  dsimp only
  rw [backtestCounters_bets]

theorem backtestMkBet_stake (opts : BacktestOptions) (st : BacktestState)
    (game : Game) (pw : String) (conf : ℚ) (odds : Odds) :
    (backtestMkBet opts st game pw conf odds).stake
      = st.bankroll * (2/100) * opts.kellyFraction := rfl

theorem backtestMkBet_prior_bankroll (opts : BacktestOptions)
    (st : BacktestState) (game : Game) (pw : String) (conf : ℚ) (odds : Odds) :
    (backtestMkBet opts st game pw conf odds).bankroll
      - (backtestMkBet opts st game pw conf odds).profit = st.bankroll := by
  unfold backtestMkBet
  dsimp only
  rw [backtestCounters_bankroll]
  ring

/-- Each backtest loop iteration either skips the game or runs the
bet-placing body. -/
theorem backtestStep_cases (hist : List Game) (sportKey : String)
    (opts : BacktestOptions) (mw : Option ℚ) (now : ℚ) (st : BacktestState)
    (g : Game) :
    backtestStep hist sportKey opts mw now st g = st ∨
    ∃ pw conf odds,
      backtestStep hist sportKey opts mw now st g
        = backtestApply opts st g pw conf odds := by
  unfold backtestStep
  dsimp only
  repeat' first
  | exact Or.inl rfl
  | exact Or.inr ⟨_, _, _, rfl⟩
  | split

/-- Any branch of the backtest loop body leaves the head of the recorded
bets list unchanged once it is non-empty. -/
theorem backtestStep_head (hist : List Game) (sportKey : String)
    (opts : BacktestOptions) (mw : Option ℚ) (now : ℚ) (t : ℚ × ℚ × ℚ × ℚ) :
    ∀ (st : BacktestState) (g : Game),
      st.bets.head?.map simBetSummary = some t →
      (backtestStep hist sportKey opts mw now st g).bets.head?.map simBetSummary
        = some t := by
  intro st g h
  rcases backtestStep_cases hist sportKey opts mw now st g with hc | ⟨pw, conf, odds, hc⟩
  · rw [hc]; exact h
  · rw [hc, backtestApply_bets]
    rcases hb : st.bets with _ | ⟨x, xs⟩
    · rw [hb] at h; simp at h
    · rw [hb] at h
      simpa using h

set_option maxHeartbeats 4000000 in
set_option maxRecDepth 1000000 in
/-- C3 counterexample: in the demo backtest the first simulated bet is
staked 5 (the flat `bankroll × 0.02 × kellyFraction` at bankroll 1000)
at selection probability 0.85 and odds 19/17, whereas
`calculateKellyStake(0.85, 19/17, 1000)` is 0 (negative edge → skip):
the backtest does not exercise the Kelly staking rule. -/
theorem backtest_stake_not_kelly :
    (runBacktest demoHist "s" {} none 100).map
        (fun r => r.allBets.head?.map simBetSummary)
      = some (some (5, 19/17, 17/20, 1000)) ∧
    calculateKellyStake defaultConfig (17/20) (19/17) 1000 = 0 ∧
    (5 : ℚ) ≠ 0 := by
  refine ⟨?_, by with_unfolding_all decide, by norm_num⟩
  have hgames : backtestGames demoHist "s" {} = demoGame 49 :: rest49 := by
    with_unfolding_all decide
  have hlen : ¬ (demoGame 49 :: rest49).length < 50 := by
    with_unfolding_all decide
  have h1 : (backtestStep demoHist "s" {} none 100 {} (demoGame 49)).bets.head?.map
      simBetSummary = some (5, 19/17, 17/20, 1000) := by
    with_unfolding_all decide
  have hfold : ((demoGame 49 :: rest49).foldl
      (backtestStep demoHist "s" {} none 100) {}).bets.head?.map simBetSummary
      = some (5, 19/17, 17/20, 1000) := by
    rw [List.foldl_cons]
    exact foldlPreserves (backtestStep demoHist "s" {} none 100)
      (fun st => st.bets.head?.map simBetSummary = some (5, 19/17, 17/20, 1000))
      (fun st g h => backtestStep_head demoHist "s" {} none 100 _ st g h)
      rest49 _ h1
  unfold runBacktest
  rw [hgames]
  rw [if_neg hlen]
  exact congrArg some hfold

/-- C3 (amended): every simulated bet recorded by the backtest is staked
with the flat rule `stake = bankroll × 0.02 × kellyFraction` against the
local running bankroll at placement (recorded bankroll minus recorded
profit) — not with `calculateKellyStake`. -/
theorem backtest_stake_flat_amended :
    ∀ (hist : List Game) (sportKey : String) (opts : BacktestOptions)
      (mw : Option ℚ) (now : ℚ) (run : BacktestRun),
      runBacktest hist sportKey opts mw now = some run →
      run.allBets.Forall
        (fun b => b.stake = (b.bankroll - b.profit) * (2/100) * opts.kellyFraction) := by
  intro hist sportKey opts mw now run h
  simp only [runBacktest] at h
  split at h
  · exact absurd h (by simp)
  · have hrun : run = _ := (Option.some.inj h).symm
    subst hrun
    simp only []
    refine foldlPreserves (backtestStep hist sportKey opts mw now)
      (fun st => st.bets.Forall
        (fun b => b.stake = (b.bankroll - b.profit) * (2/100) * opts.kellyFraction))
      ?_ _ {} (by simp [List.Forall])
    intro st g hst
    rcases backtestStep_cases hist sportKey opts mw now st g with hc | ⟨pw, conf, odds, hc⟩
    · rw [hc]; exact hst
    · rw [hc, backtestApply_bets]
      simp only [List.forall_iff_forall_mem, List.mem_append,
        List.mem_singleton] at hst ⊢
      rintro b (hb | hb)
      · exact hst b hb
      · subst hb
        rw [backtestMkBet_stake, backtestMkBet_prior_bankroll]

/-- C3 witness: the flat-staking rule instantiated on the demo run. -/
theorem backtest_stake_flat_witness :
    demoRun.allBets.Forall
      (fun b => b.stake = (b.bankroll - b.profit) * (2/100)
        * ({} : BacktestOptions).kellyFraction) :=
  backtest_stake_flat_amended demoHist "s" {} none 100 demoRun
    (by with_unfolding_all rfl)

/-! ## C10 — bankroll conservation -/

theorem pendingStakes_cons (b : PaperBet) (l : List PaperBet) :
    pendingStakes (b :: l)
      = (if b.result = "pending" then b.stake else 0) + pendingStakes l := by
  by_cases h : b.result = "pending" <;>
    simp [pendingStakes, List.filter_cons, h]

theorem pendingStakes_append (l₁ l₂ : List PaperBet) :
    pendingStakes (l₁ ++ l₂) = pendingStakes l₁ + pendingStakes l₂ := by
  simp [pendingStakes, List.filter_append]

theorem settleOne_bankroll (g : Game) (b : PaperBet) (st : BetState) :
    (settleOne g b st).2.bankroll = st.bankroll + b.stake + settleProfit g b := by
  unfold settleOne
  dsimp only
  rw [settleCounters_bankroll]

theorem settleOne_totalProfit (g : Game) (b : PaperBet) (st : BetState) :
    (settleOne g b st).2.totalProfit = st.totalProfit + settleProfit g b := by
  unfold settleOne
  dsimp only
  rw [settleCounters_totalProfit]

theorem shouldSettle_pending {games : List Game} {b : PaperBet}
    (h : shouldSettle games b = true) : b.result = "pending" := by
  unfold shouldSettle at h
  rw [Bool.and_eq_true] at h
  exact of_decide_eq_true h.1

theorem settleBets_conserves (games : List Game)
    (hg : ∀ g ∈ games, g.home_team ≠ "pending" ∧ g.away_team ≠ "pending") :
    ∀ (bets : List PaperBet) (st : BetState),
      (settleBets games bets st).2.bankroll
          + pendingStakes (settleBets games bets st).1
          - (settleBets games bets st).2.totalProfit
        = st.bankroll + pendingStakes bets - st.totalProfit := by
  intro bets
  induction bets with
  | nil => intro st; simp [settleBets]
  | cons b rest ih =>
    intro st
    by_cases hss : shouldSettle games b = true
    · rcases hfind : findGame games b.game_id with _ | g
      · exfalso
        unfold shouldSettle at hss
        rw [hfind] at hss
        simp at hss
      · simp only [settleBets, hss, if_true, hfind]
        rw [pendingStakes_cons,
          if_neg (settleOne_not_pending games g b st hg hfind)]
        rw [pendingStakes_cons, if_pos (shouldSettle_pending hss)]
        have hih := ih ((settleOne g b st).2)
        have hb1 := settleOne_bankroll g b st
        have hb2 := settleOne_totalProfit g b st
        linarith
    · have hss' : shouldSettle games b = false := by
        cases hv : shouldSettle games b
        · rfl
        · exact absurd hv hss
      simp only [settleBets, hss', Bool.false_eq_true, if_false]
      rw [pendingStakes_cons, pendingStakes_cons]
      have hih := ih st
      linarith

theorem execOps_conserves :
    ∀ (ops : List LedgerOp) (bets : List PaperBet) (st : BetState),
      (∀ op ∈ ops, opOk op) →
      (ops.foldl execOp (bets, st)).2.bankroll
          + pendingStakes (ops.foldl execOp (bets, st)).1
          - (ops.foldl execOp (bets, st)).2.totalProfit
        = st.bankroll + pendingStakes bets - st.totalProfit := by
  intro ops
  induction ops with
  | nil => intro bets st _; rfl
  | cons op rest ih =>
    intro bets st hok
    have hop : opOk op := hok op (List.mem_cons_self op rest)
    have hrest : ∀ op' ∈ rest, opOk op' := fun op' h' =>
      hok op' (List.mem_cons_of_mem op h')
    rw [List.foldl_cons]
    rcases op with ⟨gid, stake, odds, sel⟩ | games
    · rw [ih _ _ hrest]
      simp [execOp, placeBet, pendingStakes_append, pendingStakes]
    · rw [ih _ _ hrest]
      have := settleBets_conserves games hop bets st
      simp only [execOp]
      linarith

theorem backtestApply_bankroll (opts : BacktestOptions) (st : BacktestState)
    (game : Game) (pw : String) (conf : ℚ) (odds : Odds) :
    (backtestApply opts st game pw conf odds).bankroll
      = st.bankroll + (backtestMkBet opts st game pw conf odds).profit := by
  unfold backtestApply backtestMkBet
  dsimp only
  rw [backtestCounters_bankroll]

/-- C10: (1) over any sequence of ledger operations (placements and
settlement passes over games without a team named `"pending"`), the
bankroll plus the stakes of outstanding pending wagers equals the initial
bankroll plus cumulative profit; (2) over a full backtest run, the sum of
the profits of all recorded simulated bets equals
`finalBankroll − startingBankroll` (the local bankroll starts at 1000). -/
theorem bankroll_conservation :
    (∀ (ops : List LedgerOp) (init : ℚ),
      (∀ op ∈ ops, opOk op) →
      (ops.foldl execOp ([], initState init)).2.bankroll
          + pendingStakes (ops.foldl execOp ([], initState init)).1
        = init + (ops.foldl execOp ([], initState init)).2.totalProfit) ∧
    (∀ (hist : List Game) (sportKey : String) (opts : BacktestOptions)
       (mw : Option ℚ) (now : ℚ) (run : BacktestRun),
      runBacktest hist sportKey opts mw now = some run →
      (run.allBets.map (·.profit)).sum = run.finalBankroll - 1000) := by
  constructor
  · intro ops init hok
    have h := execOps_conserves ops [] (initState init) hok
    have h0 : pendingStakes ([] : List PaperBet) = 0 := rfl
    rw [h0] at h
    have h1 : (initState init).bankroll = init := rfl
    have h2 : (initState init).totalProfit = 0 := rfl
    rw [h1, h2] at h
    linarith
  · intro hist sportKey opts mw now run h
    simp only [runBacktest] at h
    split at h
    · exact absurd h (by simp)
    · have hrun : run = _ := (Option.some.inj h).symm
      subst hrun
      simp only []
      have hinv := foldlPreserves (backtestStep hist sportKey opts mw now)
        (fun st => st.bankroll = 1000 + ((st.bets.map (·.profit)).sum))
        ?_ (backtestGames hist sportKey opts) {} (by simp)
      · linarith
      · intro st g hst
        rcases backtestStep_cases hist sportKey opts mw now st g with hc |
          ⟨pw, conf, odds, hc⟩
        · rw [hc]; exact hst
        · rw [hc, backtestApply_bankroll, backtestApply_bets]
          simp only [List.map_append, List.map_cons, List.map_nil,
            List.sum_append, List.sum_cons, List.sum_nil]
          linarith

/-- C10 witness: conservation instantiated on a concrete place-then-settle
history and on the demo backtest run. -/
theorem bankroll_conservation_witness :
    ((demoOps.foldl execOp ([], initState 1000)).2.bankroll
        + pendingStakes (demoOps.foldl execOp ([], initState 1000)).1
      = 1000 + (demoOps.foldl execOp ([], initState 1000)).2.totalProfit) ∧
    ((demoRun.allBets.map (·.profit)).sum = demoRun.finalBankroll - 1000) := by
  constructor
  · refine bankroll_conservation.1 demoOps 1000 ?_
    intro op hop
    rcases List.mem_cons.mp hop with h | h
    · subst h; trivial
    · rcases List.mem_cons.mp h with h' | h'
      · subst h'
        intro g hg
        rcases List.mem_singleton.mp hg with rfl
        exact ⟨by decide, by decide⟩
      · simp at h'
  · exact bankroll_conservation.2 demoHist "s" {} none 100 demoRun
      (by with_unfolding_all rfl)

end SportsPredictor
